import Mathlib

/-!
Shallow embedding of the fuzzy C-means implementation in `src/fcm.py`, with
proofs of the specification's claims about it.

Numpy arrays of `mpf` high-precision scalars are embedded as total functions
`ℕ → ℝ` (vectors) and `ℕ → ℕ → ℝ` (matrices), with the array shapes carried
alongside as explicit natural-number arguments; the `mpf` arithmetic of the
source is modelled as exact real arithmetic.  `np.sum` over a Python list
comprehension is a list sum, and the comprehension-plus-`np.reshape`
constructions of `calculate_distances` and `update_centroids` are embedded as
the flat list the comprehension builds, indexed the way `np.reshape` lays a
row-major array out.  `mpf ** mpf` and `mpmath.power` are `Real.rpow`.
-/

set_option linter.unusedVariables false

namespace FCMPy

open Classical

/-- A numpy matrix of `mpf` scalars: entries as a total function, the shape
kept separately.  Out-of-range indices hold junk and never decide a claim. -/
abbrev Mat : Type := ℕ → ℕ → ℝ

/-- A numpy vector (one row of a matrix). -/
abbrev Vec : Type := ℕ → ℝ

/-- `calculate_euclidean_distance`: the square of the Euclidean distance,
`fsum((np.subtract(x, y)) ** mpf(2))`, over vectors of length `D` (the
exponent 2 is integral, where `mpf` power and the natural power agree). -/
noncomputable def calculate_euclidean_distance (D : ℕ) (x y : Vec) : ℝ :=
  ((List.range D).map fun d => (x d - y d) ^ 2).sum

/-- `matrix_norm`: the Frobenius norm `sqrt(np.sum((np.subtract(x, y)) **
mpf(2.0)))` of the difference of two `K × N` matrices. -/
noncomputable def matrix_norm (x y : Mat) (K N : ℕ) : ℝ :=
  Real.sqrt (((List.range K).map fun i =>
    ((List.range N).map fun k => (x i k - y i k) ^ 2).sum).sum)

/-- The flat list the comprehension in `calculate_distances` builds:
`[calculate_euclidean_distance(i, j) for i in data for j in centers]`
with `data` of `N` rows and `centers` of `K` rows. -/
noncomputable def distances_flat (data centers : Mat) (N K D : ℕ) : List ℝ :=
  (List.range N).flatMap fun i =>
    (List.range K).map fun j =>
      calculate_euclidean_distance D (data i) (centers j)

/-- `calculate_distances`: the flat list reshaped to
`(distances.shape[0] // centers.shape[0], centers.shape[0])`, i.e. to `N`
rows of `K` columns in row-major order. -/
noncomputable def calculate_distances (data centers : Mat) (N K D : ℕ) : Mat :=
  fun i j => (distances_flat data centers N K D).getD (i * K + j) 0

/-- The predicate `math.isclose(a, b)` with its default tolerances
`rel_tol=1e-9, abs_tol=0.0`: `|a-b| <= max(rel_tol*max(|a|,|b|), abs_tol)`. -/
def isclose (a b : ℝ) : Prop :=
  |a - b| ≤ (1 / 1000000000) * max |a| |b|

/-- The check `__verificar_soma_igual_a_1__` asserts: every column of the
`K × N` matrix sums to 1 up to `math.isclose`'s default tolerance
(`np.sum(matriz, axis=0)` sums each column over the `K` rows). -/
def verificar_soma_igual_a_1 (m : Mat) (K N : ℕ) : Prop :=
  ∀ k < N, isclose (((List.range K).map fun i => m i k).sum) 1

/-- The matrix `update_membership(u, data, distances, n_clusters, mu)` leaves
behind: every entry `u[i][k]` with `i < n_clusters` and
`k < data.shape[0]` is overwritten with
`fdiv(1, np.sum([power(fdiv(d[k][i], d[k][j]), 2/(mu-1)) for j in
range(n_clusters)]))`; entries outside the loop ranges keep their old
values.  `data` enters only through its row count `N = data.shape[0]`. -/
noncomputable def update_membership (u data : Mat) (N : ℕ) (distances : Mat)
    (n_clusters : ℕ) (μ : ℝ) : Mat :=
  fun i k =>
    if i < n_clusters ∧ k < N then
      1 / ((List.range n_clusters).map fun j =>
        (distances k i / distances k j) ^ (2 / (μ - 1))).sum
    else u i k

/-- The flat list the comprehension in `update_centroids` builds:
`[fdiv(np.sum((i**mu) * j), np.sum(i**mu)) for i in u for j in data.T]`,
`i` running over the `K` rows of `u` and `j` over the `D` columns of
`data` (the rows of `data.T`), each of length `N`. -/
noncomputable def centroids_flat (u data : Mat) (μ : ℝ) (K N D : ℕ) : List ℝ :=
  (List.range K).flatMap fun i =>
    (List.range D).map fun d =>
      ((List.range N).map fun k => u i k ^ μ * data k d).sum /
        ((List.range N).map fun k => u i k ^ μ).sum

/-- `update_centroids(u, data, mu)`: the flat list reshaped to
`(C.shape[0] // data.shape[1], data.shape[1])`, i.e. to `K` rows of `D`
columns in row-major order. -/
noncomputable def update_centroids (u data : Mat) (μ : ℝ) (K N D : ℕ) : Mat :=
  fun i d => (centroids_flat u data μ K N D).getD (i * D + d) 0

/-- `mmg(u, data, centers, mu)`: the generalized least-squares objective,
accumulating `calculate_euclidean_distance(c, d) * u[j][i] ** mu` over the
`N` data rows `i` and the `K` center rows `j`. -/
noncomputable def mmg (u data centers : Mat) (μ : ℝ) (N K D : ℕ) : ℝ :=
  ((List.range N).map fun i =>
    ((List.range K).map fun j =>
      calculate_euclidean_distance D (centers j) (data i) * u j i ^ μ).sum).sum

/-- The configuration state `FCM.__init__(self, n_clusters, mu=2, eps=0.01)`
stores: the three arguments, unchanged and unvalidated. -/
structure FCM where
  n_clusters : ℕ
  mu : ℝ
  eps : ℝ

/-- `FCM.__init__` itself: it performs no check on any argument. -/
def FCM.init (n_clusters : ℕ) (mu eps : ℝ) : FCM :=
  { n_clusters := n_clusters, mu := mu, eps := eps }

/-- The mutable per-fit state: `self.u` and `self.centers`. -/
structure FitState where
  u : Mat
  centers : Mat

/-- One iteration of the `while True` loop in `FCM.fit`:
`self._update_membership()` (which recomputes the distance matrix from the
current centers and then calls `update_membership`) followed by
`self._update_centroids()`. -/
noncomputable def loopBody (cfg : FCM) (data : Mat) (N D : ℕ)
    (s : FitState) : FitState :=
  let dists := calculate_distances data s.centers N cfg.n_clusters D
  let u' := update_membership s.u data N dists cfg.n_clusters cfg.mu
  { u := u', centers := update_centroids u' data cfg.mu cfg.n_clusters N D }

/-- The states `FCM.fit` passes through: state 0 is the initial membership
with the centers from the priming `self._update_centroids()` call, and each
later state applies one loop iteration. -/
noncomputable def fitSeq (cfg : FCM) (data : Mat) (N D : ℕ) (u0 : Mat) :
    ℕ → FitState
  | 0 => { u := u0, centers := update_centroids u0 data cfg.mu cfg.n_clusters N D }
  | n + 1 => loopBody cfg data N D (fitSeq cfg data N D u0 n)

/-- The `while True` loop of `FCM.fit` with explicit fuel (the source has no
iteration cap, so an oscillating run is `none` at every fuel): snapshot
`u_copy = self.u`, run the loop body, stop when
`matrix_norm(u_copy, self.u) < self.eps`. -/
noncomputable def fitAux (cfg : FCM) (data : Mat) (N D : ℕ) :
    ℕ → FitState → Option FitState
  | 0, _ => none
  | fuel + 1, s =>
    let s' := loopBody cfg data N D s
    if matrix_norm s.u s'.u cfg.n_clusters N < cfg.eps then some s'
    else fitAux cfg data N D fuel s'

/-- `FCM.fit(data, u)` with a supplied initial membership `u0`: the
high-precision conversion `mpf(str(x))` is the identity here, the priming
centroid update runs once, then the loop. -/
noncomputable def fit (cfg : FCM) (data : Mat) (N D : ℕ) (u0 : Mat)
    (fuel : ℕ) : Option FitState :=
  fitAux cfg data N D fuel
    { u := u0, centers := update_centroids u0 data cfg.mu cfg.n_clusters N D }

/-! Helper lemmas: list sums as finite sums, and the row-major indexing of a
reshaped comprehension. -/

/-- A summed comprehension over `range n` is the finite sum. -/
theorem list_sum_map_range (f : ℕ → ℝ) (n : ℕ) :
    ((List.range n).map f).sum = ∑ j ∈ Finset.range n, f j := by
  induction n with
  | zero => simp
  | succ n ih => rw [List.range_succ]; simp [ih, Finset.sum_range_succ]

/-- Length of the flat list a nested comprehension over `range n × range k`
builds. -/
theorem length_flat_comprehension (f : ℕ → ℕ → ℝ) (n k : ℕ) :
    ((List.range n).flatMap fun a => (List.range k).map fun b => f a b).length
      = n * k := by
  induction n with
  | zero => simp
  | succ n ih =>
      rw [List.range_succ, List.flatMap_append, List.length_append, ih]
      simp [Nat.succ_mul]

/-- Indexing a mapped `range` with a default never reaches the default
inside the range. -/
theorem getD_map_range {β : Type} (g : ℕ → β) (z : β) {n k : ℕ}
    (hk : k < n) : ((List.range n).map g).getD k z = g k := by
  rw [List.getD_eq_getElem _ _ (by simpa using hk)]
  simp

/-- Entry `(i, j)` of the reshape of a nested comprehension over
`range n × range k` into `n` rows of `k` columns: row-major position
`i * k + j` holds `f i j`. -/
theorem getD_flat_comprehension (f : ℕ → ℕ → ℝ) {n k i j : ℕ}
    (hi : i < n) (hj : j < k) :
    ((List.range n).flatMap fun a => (List.range k).map fun b => f a b).getD
      (i * k + j) 0 = f i j := by
  induction n with
  | zero => omega
  | succ n ih =>
      rw [List.range_succ, List.flatMap_append]
      rcases Nat.lt_or_ge i n with h | h
      · rw [List.getD_append]
        · exact ih h
        · rw [length_flat_comprehension]
          calc i * k + j < i * k + k := by omega
          _ = (i + 1) * k := by ring
          _ ≤ n * k := Nat.mul_le_mul_right k h
      · have hik : i = n := by omega
        subst hik
        rw [List.getD_append_right]
        · rw [length_flat_comprehension]
          have hjj : i * k + j - i * k = j := by omega
          rw [hjj]
          simp only [List.flatMap_cons, List.flatMap_nil, List.append_nil]
          rw [List.getD_eq_getElem _ _ (by simpa using hj)]
          simp
        · rw [length_flat_comprehension]; omega

/-! Entry lemmas for the pure functions. -/

/-- Entry `(i, k)` of the matrix `update_membership` leaves behind, inside
the loop ranges, as a finite sum. -/
theorem update_membership_apply (u data : Mat) {N : ℕ} (d : Mat) {K : ℕ}
    (μ : ℝ) {i k : ℕ} (hi : i < K) (hk : k < N) :
    update_membership u data N d K μ i k
      = 1 / ∑ j ∈ Finset.range K, (d k i / d k j) ^ (2 / (μ - 1)) := by
  rw [update_membership, if_pos ⟨hi, hk⟩, list_sum_map_range]

/-- Entry `(i, j)` of `calculate_distances` inside the shape. -/
theorem calculate_distances_apply (data centers : Mat) {N K : ℕ} (D : ℕ)
    {i j : ℕ} (hi : i < N) (hj : j < K) :
    calculate_distances data centers N K D i j
      = calculate_euclidean_distance D (data i) (centers j) := by
  rw [calculate_distances, distances_flat, getD_flat_comprehension _ hi hj]

/-- The squared Euclidean distance as a finite sum. -/
theorem calculate_euclidean_distance_eq_sum (D : ℕ) (x y : Vec) :
    calculate_euclidean_distance D x y
      = ∑ d ∈ Finset.range D, (x d - y d) ^ 2 := by
  rw [calculate_euclidean_distance, list_sum_map_range]

/-- Entry `(i, d)` of `update_centroids` inside the shape, as finite sums. -/
theorem update_centroids_apply (u data : Mat) (μ : ℝ) {K N D : ℕ}
    {i d : ℕ} (hi : i < K) (hd : d < D) :
    update_centroids u data μ K N D i d
      = (∑ k ∈ Finset.range N, u i k ^ μ * data k d) /
          (∑ k ∈ Finset.range N, u i k ^ μ) := by
  rw [update_centroids, centroids_flat, getD_flat_comprehension _ hi hd,
    list_sum_map_range, list_sum_map_range]

/-- The Frobenius norm as a finite double sum. -/
theorem matrix_norm_eq_sum (x y : Mat) (K N : ℕ) :
    matrix_norm x y K N
      = Real.sqrt (∑ i ∈ Finset.range K,
          ∑ k ∈ Finset.range N, (x i k - y i k) ^ 2) := by
  rw [matrix_norm, list_sum_map_range]
  exact congrArg Real.sqrt
    (Finset.sum_congr rfl fun i _ => list_sum_map_range _ _)

/-- The objective `mmg` as a finite double sum. -/
theorem mmg_eq_sum (u data centers : Mat) (μ : ℝ) (N K D : ℕ) :
    mmg u data centers μ N K D
      = ∑ i ∈ Finset.range N, ∑ j ∈ Finset.range K,
          calculate_euclidean_distance D (centers j) (data i) * u j i ^ μ := by
  rw [mmg, list_sum_map_range]
  exact Finset.sum_congr rfl fun i _ => list_sum_map_range _ _

/-! Concrete matrices used by witnesses. -/

/-- The all-zeroes matrix. -/
noncomputable def matZero : Mat := fun _ _ => 0

/-- The all-ones matrix. -/
noncomputable def matOne : Mat := fun _ _ => 1

/-! Claim theorems. -/

/-- C1: for every point `k < N` and cluster `i < K`, when every entry of the
distance matrix is nonzero and `mu > 1`, `update_membership` sets
`u[i][k] = 1 / sum_over_j((d[k][i] / d[k][j]) ^ (2/(mu-1)))`. -/
theorem C1_membership_update_rule (u data : Mat) (N : ℕ) (d : Mat) (K : ℕ)
    (μ : ℝ) (hd : ∀ k < N, ∀ j < K, d k j ≠ 0) (hμ : 1 < μ) :
    ∀ k < N, ∀ i < K,
      update_membership u data N d K μ i k
        = 1 / ∑ j ∈ Finset.range K, (d k i / d k j) ^ (2 / (μ - 1)) :=
  fun k hk i hi => update_membership_apply u data d μ hi hk

/-- Witness for C1 at `N = K = 1`, all distances 1, `mu = 3`. -/
theorem C1_membership_update_rule_witness :
    update_membership matZero matZero 1 matOne 1 3 0 0
      = 1 / ∑ j ∈ Finset.range 1,
          (matOne 0 0 / matOne 0 j) ^ (2 / ((3 : ℝ) - 1)) :=
  C1_membership_update_rule matZero matZero 1 matOne 1 3
    (fun k _ j _ => by norm_num [matOne]) (by norm_num) 0 (by norm_num)
    0 (by norm_num)

/-- C2: `update_centroids` returns a `K × D` matrix whose entry `(i, d)` is
the weighted mean `sum_k(u[i][k]^mu * data[k][d]) / sum_k(u[i][k]^mu)`. -/
theorem C2_centroid_update_rule (u data : Mat) (μ : ℝ) (K N D : ℕ) :
    (centroids_flat u data μ K N D).length = K * D ∧
    ∀ i < K, ∀ d < D,
      update_centroids u data μ K N D i d
        = (∑ k ∈ Finset.range N, u i k ^ μ * data k d) /
            (∑ k ∈ Finset.range N, u i k ^ μ) := by
  constructor
  · rw [centroids_flat]; exact length_flat_comprehension _ K D
  · exact fun i hi d hd => update_centroids_apply u data μ hi hd

/-- C8: `calculate_distances` is the `N × K` matrix of squared Euclidean
point-to-center distances, rows in data order and columns in center order. -/
theorem C8_distance_matrix_shape_and_entries (data centers : Mat)
    (N K D : ℕ) :
    (distances_flat data centers N K D).length = N * K ∧
    ∀ i < N, ∀ j < K,
      calculate_distances data centers N K D i j
        = calculate_euclidean_distance D (data i) (centers j) ∧
      calculate_euclidean_distance D (data i) (centers j)
        = ∑ d ∈ Finset.range D, (data i d - centers j d) ^ 2 := by
  constructor
  · rw [distances_flat]; exact length_flat_comprehension _ N K
  · exact fun i hi j hj =>
      ⟨calculate_distances_apply data centers D hi hj,
       calculate_euclidean_distance_eq_sum D (data i) (centers j)⟩

/-- C10: two membership updates with the same distance matrix, cluster count,
fuzziness and data row count produce the same matrix entries, whatever the
prior membership contents and the data values were. -/
theorem C10_membership_depends_only_on_distances (u₁ u₂ data₁ data₂ : Mat)
    (N : ℕ) (d : Mat) (K : ℕ) (μ : ℝ) :
    ∀ i < K, ∀ k < N,
      update_membership u₁ data₁ N d K μ i k
        = update_membership u₂ data₂ N d K μ i k := by
  intro i hi k hk
  rw [update_membership_apply u₁ data₁ d μ hi hk,
    update_membership_apply u₂ data₂ d μ hi hk]

/-- Witness for C10 at `N = K = 1` with different memberships and data. -/
theorem C10_membership_depends_only_on_distances_witness :
    update_membership matZero matZero 1 matOne 1 3 0 0
      = update_membership matOne matOne 1 matOne 1 3 0 0 :=
  C10_membership_depends_only_on_distances matZero matOne matZero matOne 1
    matOne 1 3 0 (by norm_num) 0 (by norm_num)

/-- Core algebraic fact behind the membership invariant: for positive
distances `dk 0, …, dk (K-1)` from one point to the `K` centers and any real
exponent `e`, the memberships `1 / sum_j((dk i / dk j) ^ e)` of that point
sum to exactly 1. -/
theorem colsum_membership_formula {K : ℕ} (hK : 0 < K) (dk : ℕ → ℝ)
    (hd : ∀ j < K, 0 < dk j) (e : ℝ) :
    ∑ i ∈ Finset.range K,
      (1 / ∑ j ∈ Finset.range K, (dk i / dk j) ^ e) = 1 := by
  have ha : ∀ i ∈ Finset.range K, 0 < dk i ^ e := fun i hi =>
    Real.rpow_pos_of_pos (hd i (Finset.mem_range.mp hi)) e
  have hsum : ∀ i ∈ Finset.range K,
      ∑ j ∈ Finset.range K, (dk i / dk j) ^ e
        = dk i ^ e * ∑ j ∈ Finset.range K, (dk j ^ e)⁻¹ := by
    intro i hi
    rw [Finset.mul_sum]
    refine Finset.sum_congr rfl fun j hj => ?_
    rw [Real.div_rpow (hd i (Finset.mem_range.mp hi)).le
      (hd j (Finset.mem_range.mp hj)).le, div_eq_mul_inv]
  have hT : 0 < ∑ j ∈ Finset.range K, (dk j ^ e)⁻¹ :=
    Finset.sum_pos (fun j hj => inv_pos.mpr (ha j hj))
      (Finset.nonempty_range_iff.mpr hK.ne')
  calc ∑ i ∈ Finset.range K,
        (1 / ∑ j ∈ Finset.range K, (dk i / dk j) ^ e)
      = ∑ i ∈ Finset.range K,
          (dk i ^ e)⁻¹ * (∑ j ∈ Finset.range K, (dk j ^ e)⁻¹)⁻¹ := by
        refine Finset.sum_congr rfl fun i hi => ?_
        rw [hsum i hi, one_div, mul_inv]
    _ = 1 := by
        rw [← Finset.sum_mul]
        exact mul_inv_cancel₀ hT.ne'

/-! Error-raising model.  `mpmath.fdiv` and `mpmath.power` raise
`ZeroDivisionError` on a zero divisor (resp. a zero base with negative
exponent), and the `assert` in `__verificar_soma_igual_a_1__` raises
`AssertionError`; computations that can raise are modelled in `Except`.
`invalidFuzziness` and `degenerateCluster` are the error kinds the
specification's §7 names (`InvalidFuzziness`, `DegenerateCluster`); the code
never defines or raises them, and they are present only so that the claims
naming them can be stated and compared against what the code raises. -/
inductive PyErr where
  | zeroDivisionError
  | assertionError
  | invalidFuzziness
  | degenerateCluster
deriving DecidableEq

/-- `mpmath.fdiv(a, b)`: raises `ZeroDivisionError` when `b = 0`. -/
noncomputable def fdivE (a b : ℝ) : Except PyErr ℝ :=
  if b = 0 then .error .zeroDivisionError else .ok (a / b)

/-- `mpmath.power(b, e)`: raises `ZeroDivisionError` on a zero base with
negative exponent, and is `Real.rpow` otherwise (the bases that occur are
nonnegative). -/
noncomputable def powE (b e : ℝ) : Except PyErr ℝ :=
  if b = 0 ∧ e < 0 then .error .zeroDivisionError else .ok (b ^ e)

/-- Evaluate a list comprehension whose elements can raise: the first raise
wins, exactly as Python evaluates `[f(a) for a in l]`. -/
def mapE {α β : Type} (f : α → Except PyErr β) :
    List α → Except PyErr (List β)
  | [] => .ok []
  | a :: l => (f a).bind fun b => (mapE f l).map fun bs => b :: bs

/-- One term `power(fdiv(d[k][i], d[k][j]), expoente)` of the membership
sum. -/
noncomputable def razaoE (d : Mat) (expo : ℝ) (k i j : ℕ) : Except PyErr ℝ :=
  (fdivE (d k i) (d k j)).bind fun r => powE r expo

/-- The membership entry
`fdiv(1, np.sum([power(fdiv(d[k][i], d[k][j]), expoente) for j in
range(n_clusters)]))` with its possible raises. -/
noncomputable def membership_entryE (d : Mat) (K : ℕ) (expo : ℝ) (k i : ℕ) :
    Except PyErr ℝ :=
  (mapE (razaoE d expo k i) (List.range K)).bind fun l => fdivE 1 l.sum

/-- The matrix `update_membership` leaves behind, assembled from the computed
columns (`cols.getD k []` is the column of point `k`, listing the entries for
clusters `0, …, K-1`); entries outside the loop ranges keep the old `u`. -/
noncomputable def membership_result (u : Mat) (N K : ℕ)
    (cols : List (List ℝ)) : Mat :=
  fun i k => if k < N ∧ i < K then (cols.getD k []).getD i 0 else u i k

/-- `update_membership` with the raises of `mpmath` and of the final
`__verificar_soma_igual_a_1__` assertion: compute
`expoente = fdiv(mpf(2), mu - mpf(1))`, fill every entry, then assert the
column sums. -/
noncomputable def update_membershipE (u data : Mat) (N : ℕ) (d : Mat)
    (K : ℕ) (μ : ℝ) : Except PyErr Mat :=
  (fdivE 2 (μ - 1)).bind fun expo =>
    (mapE (fun k => mapE (membership_entryE d K expo k) (List.range K))
        (List.range N)).bind fun cols =>
      if verificar_soma_igual_a_1 (membership_result u N K cols) K N then
        .ok (membership_result u N K cols)
      else .error .assertionError

/-- The index pairs `(i, d)` the centroid comprehension
`for i in u for j in data.T` runs over, in order. -/
def centroid_pairs (K D : ℕ) : List (ℕ × ℕ) :=
  (List.range K).flatMap fun i => (List.range D).map fun d => (i, d)

/-- One entry `fdiv(np.sum((i**mu) * j), np.sum(i**mu))` of the centroid
comprehension, with the raise of `fdiv` on a zero weight sum. -/
noncomputable def centroid_entryE (u data : Mat) (μ : ℝ) (N : ℕ)
    (p : ℕ × ℕ) : Except PyErr ℝ :=
  fdivE (((List.range N).map fun k => u p.1 k ^ μ * data k p.2).sum)
    (((List.range N).map fun k => u p.1 k ^ μ).sum)

/-- `update_centroids` with the raises of `mpmath.fdiv`. -/
noncomputable def update_centroidsE (u data : Mat) (μ : ℝ) (K N D : ℕ) :
    Except PyErr Mat :=
  (mapE (centroid_entryE u data μ N) (centroid_pairs K D)).bind fun flat =>
    .ok fun i d => flat.getD (i * D + d) 0

/-! Reasoning principles for `mapE`. -/

/-- Bind on a success, as a rewrite. -/
@[simp] theorem ok_bindE {β γ : Type} (v : β) (f : β → Except PyErr γ) :
    (Except.ok v : Except PyErr β).bind f = f v := rfl

/-- Bind on a raise, as a rewrite. -/
@[simp] theorem error_bindE {β γ : Type} (e : PyErr)
    (f : β → Except PyErr γ) :
    (Except.error e : Except PyErr β).bind f = .error e := rfl

/-- A computation that either succeeds or raises the error `e₀`. -/
def OkOrErr {β : Type} (x : Except PyErr β) (e₀ : PyErr) : Prop :=
  (∃ v, x = .ok v) ∨ x = .error e₀

/-- A comprehension all of whose elements succeed succeeds, with the mapped
values. -/
theorem mapE_ok_of_forall {α β : Type} {f : α → Except PyErr β} {g : α → β}
    {l : List α} (h : ∀ a ∈ l, f a = .ok (g a)) :
    mapE f l = .ok (l.map g) := by
  induction l with
  | nil => rfl
  | cons a l ih =>
      rw [mapE, h a (by simp), ih fun b hb => h b (by simp [hb])]
      rfl

/-- A comprehension whose elements each succeed or raise `e₀`, and one of
whose elements raises `e₀`, raises `e₀`. -/
theorem mapE_error_of_mem {α β : Type} {f : α → Except PyErr β}
    {l : List α} {e₀ : PyErr} {a : α} :
    (∀ b ∈ l, OkOrErr (f b) e₀) → a ∈ l → f a = .error e₀ →
      mapE f l = .error e₀ := by
  induction l with
  | nil => intro _ ha _; cases ha
  | cons x l ih =>
      intro hall ha he
      rw [mapE]
      rcases List.mem_cons.mp ha with h | h
      · rw [h] at he; rw [he]; rfl
      · rcases hall x (by simp) with ⟨v, hv⟩ | hx
        · rw [hv, ih (fun b hb => hall b (by simp [hb])) h he]; rfl
        · rw [hx]; rfl

/-- A bind of computations that each succeed or raise `e₀` succeeds or
raises `e₀`. -/
theorem okOrErr_bind {β γ : Type} {x : Except PyErr β}
    {f : β → Except PyErr γ} {e₀ : PyErr} (hx : OkOrErr x e₀)
    (hf : ∀ v, OkOrErr (f v) e₀) : OkOrErr (x.bind f) e₀ := by
  rcases hx with ⟨v, hv⟩ | hx
  · rw [hv]; exact hf v
  · rw [hx]; exact Or.inr rfl

/-- A comprehension of computations that each succeed or raise `e₀`
succeeds or raises `e₀`. -/
theorem okOrErr_mapE {α β : Type} {f : α → Except PyErr β} {l : List α}
    {e₀ : PyErr} (h : ∀ a ∈ l, OkOrErr (f a) e₀) :
    OkOrErr (mapE f l) e₀ := by
  induction l with
  | nil => exact Or.inl ⟨[], rfl⟩
  | cons x l ih =>
      rw [mapE]
      refine okOrErr_bind (h x (by simp)) fun v => ?_
      rcases ih fun b hb => h b (by simp [hb]) with ⟨vs, hvs⟩ | he
      · rw [hvs]; exact Or.inl ⟨v :: vs, rfl⟩
      · rw [he]; exact Or.inr rfl

/-- `fdivE` succeeds or raises `ZeroDivisionError`. -/
theorem okOrErr_fdivE (a b : ℝ) :
    OkOrErr (fdivE a b) PyErr.zeroDivisionError := by
  rw [fdivE]; split
  · exact Or.inr rfl
  · exact Or.inl ⟨_, rfl⟩

/-- `powE` succeeds or raises `ZeroDivisionError`. -/
theorem okOrErr_powE (b e : ℝ) :
    OkOrErr (powE b e) PyErr.zeroDivisionError := by
  rw [powE]; split
  · exact Or.inr rfl
  · exact Or.inl ⟨_, rfl⟩

/-- Each term of the membership sum succeeds or raises
`ZeroDivisionError`. -/
theorem okOrErr_razaoE (d : Mat) (expo : ℝ) (k i j : ℕ) :
    OkOrErr (razaoE d expo k i j) PyErr.zeroDivisionError :=
  okOrErr_bind (okOrErr_fdivE _ _) fun r => okOrErr_powE r expo

/-- Each membership entry succeeds or raises `ZeroDivisionError`. -/
theorem okOrErr_membership_entryE (d : Mat) (K : ℕ) (expo : ℝ) (k i : ℕ) :
    OkOrErr (membership_entryE d K expo k i) PyErr.zeroDivisionError :=
  okOrErr_bind (okOrErr_mapE fun j _ => okOrErr_razaoE d expo k i j)
    fun l => okOrErr_fdivE 1 l.sum

/-! Success path of `update_membershipE`: with a positive distance matrix and
`mu ≠ 1` nothing raises and the result is the pure `update_membership`. -/

/-- With positive distances in row `k` and `i < K`, the membership entry
computes without raising. -/
theorem membership_entryE_ok {d : Mat} {K : ℕ} {expo : ℝ} {k i : ℕ}
    (hK : 0 < K) (hd : ∀ j < K, 0 < d k j) (hi : i < K) :
    membership_entryE d K expo k i
      = .ok (1 / ((List.range K).map fun j => (d k i / d k j) ^ expo).sum) := by
  rw [membership_entryE]
  have hmap : mapE (razaoE d expo k i) (List.range K)
      = .ok ((List.range K).map fun j => (d k i / d k j) ^ expo) :=
    mapE_ok_of_forall fun j hj => by
      have hj' := List.mem_range.mp hj
      rw [razaoE, fdivE, if_neg (hd j hj').ne', ok_bindE, powE, if_neg]
      rintro ⟨hzero, _⟩
      exact absurd hzero (div_pos (hd i hi) (hd j hj')).ne'
  have hsum : 0 < ((List.range K).map fun j => (d k i / d k j) ^ expo).sum := by
    rw [list_sum_map_range]
    exact Finset.sum_pos
      (fun j hj => Real.rpow_pos_of_pos
        (div_pos (hd i hi) (hd j (Finset.mem_range.mp hj))) expo)
      (Finset.nonempty_range_iff.mpr hK.ne')
  rw [hmap, ok_bindE, fdivE, if_neg hsum.ne']

/-- Reassembling the computed columns gives exactly the matrix the pure
`update_membership` describes. -/
theorem membership_result_eq_update (u data : Mat) (N K : ℕ) (d : Mat)
    (μ : ℝ) :
    membership_result u N K
        ((List.range N).map fun k => (List.range K).map fun i =>
          1 / ((List.range K).map fun j =>
            (d k i / d k j) ^ (2 / (μ - 1))).sum)
      = update_membership u data N d K μ := by
  funext i k
  rw [membership_result, update_membership]
  by_cases h : i < K ∧ k < N
  · rw [if_pos ⟨h.2, h.1⟩, if_pos h, getD_map_range _ _ h.2,
      getD_map_range _ _ h.1]
  · rw [if_neg (by tauto), if_neg h]

/-- With a positive distance matrix, every column of the updated membership
matrix sums to exactly 1. -/
theorem colsum_update_membership {u data : Mat} {N K : ℕ} {d : Mat} {μ : ℝ}
    (hK : 0 < K) (hd : ∀ k < N, ∀ j < K, 0 < d k j) {k : ℕ} (hk : k < N) :
    ∑ i ∈ Finset.range K, update_membership u data N d K μ i k = 1 := by
  rw [Finset.sum_congr rfl fun i hi =>
    update_membership_apply u data d μ (Finset.mem_range.mp hi) hk]
  exact colsum_membership_formula hK (d k) (hd k hk) _

/-- With a positive distance matrix, the column-sum assertion passes. -/
theorem verificar_passes {u data : Mat} {N K : ℕ} {d : Mat} {μ : ℝ}
    (hK : 0 < K) (hd : ∀ k < N, ∀ j < K, 0 < d k j) :
    verificar_soma_igual_a_1 (update_membership u data N d K μ) K N := by
  intro k hk
  rw [list_sum_map_range, colsum_update_membership hK hd hk]
  simp [isclose]

/-- With `mu ≠ 1` and a positive distance matrix, `update_membership`
returns normally, with the matrix of the pure model. -/
theorem update_membershipE_ok {u data : Mat} {N K : ℕ} {d : Mat} {μ : ℝ}
    (hK : 0 < K) (hμ : μ ≠ 1) (hd : ∀ k < N, ∀ j < K, 0 < d k j) :
    update_membershipE u data N d K μ
      = .ok (update_membership u data N d K μ) := by
  rw [update_membershipE, fdivE, if_neg (sub_ne_zero.mpr hμ), ok_bindE]
  have hcols : mapE (fun k => mapE (membership_entryE d K (2 / (μ - 1)) k)
        (List.range K)) (List.range N)
      = .ok ((List.range N).map fun k => (List.range K).map fun i =>
          1 / ((List.range K).map fun j =>
            (d k i / d k j) ^ (2 / (μ - 1))).sum) :=
    mapE_ok_of_forall fun k hk =>
      mapE_ok_of_forall fun i hi =>
        membership_entryE_ok hK (hd k (List.mem_range.mp hk))
          (List.mem_range.mp hi)
  rw [hcols, ok_bindE, membership_result_eq_update u data N K d μ,
    if_pos (verificar_passes hK hd)]

/-- With `mu = 1`, computing `expoente = fdiv(2, mu - 1)` raises
`ZeroDivisionError` before any entry is touched. -/
theorem update_membershipE_mu_one (u data : Mat) (N : ℕ) (d : Mat) (K : ℕ) :
    update_membershipE u data N d K 1 = .error .zeroDivisionError := by
  rw [update_membershipE, fdivE, if_pos (by norm_num), error_bindE]

/-- C4: a membership update that returns normally (on a positive distance
matrix) leaves every column summing to exactly 1, hence within absolute
tolerance `1e-9` of 1; a failing column would instead have raised the
assertion, as `update_membershipE`'s final check shows. -/
theorem C4_membership_columns_sum_to_one (u data : Mat) (N : ℕ) (d : Mat)
    (K : ℕ) (μ : ℝ) (u' : Mat) (hK : 0 < K)
    (hd : ∀ k < N, ∀ j < K, 0 < d k j)
    (hok : update_membershipE u data N d K μ = .ok u') :
    ∀ k < N, (∑ i ∈ Finset.range K, u' i k) = 1 ∧
      |(∑ i ∈ Finset.range K, u' i k) - 1| ≤ 1 / 1000000000 := by
  by_cases hμ : μ = 1
  · rw [hμ, update_membershipE_mu_one] at hok
    cases hok
  · rw [update_membershipE_ok hK hμ hd] at hok
    have hu : u' = update_membership u data N d K μ := (Except.ok.inj hok).symm
    intro k hk
    rw [hu, colsum_update_membership hK hd hk]
    norm_num

/-- Witness for C4 at `N = K = 1`, distance matrix all ones, `mu = 3`. -/
theorem C4_membership_columns_sum_to_one_witness :
    (∑ i ∈ Finset.range 1, update_membership matZero matZero 1 matOne 1 3 i 0)
        = 1 ∧
      |(∑ i ∈ Finset.range 1,
          update_membership matZero matZero 1 matOne 1 3 i 0) - 1|
        ≤ 1 / 1000000000 :=
  C4_membership_columns_sum_to_one matZero matZero 1 matOne 1 3
    (update_membership matZero matZero 1 matOne 1 3) (by norm_num)
    (fun k _ j _ => by norm_num [matOne])
    (update_membershipE_ok (by norm_num) (by norm_num)
      (fun k _ j _ => by norm_num [matOne]))
    0 (by norm_num)

/-! Claims C5, C6, C7: what the code actually raises. -/

/-- A 1 × 2 distance matrix whose point coincides with center 0:
`d[0][0] = 0`, `d[0][1] = 4`. -/
noncomputable def dZeroDist : Mat := fun _ j => if j = 0 then 0 else 4

/-- C5 counterexample: with `mu = 1/2 <= 1` the constructor stores the
fuzziness unchecked and the membership update proceeds to a normal result:
nothing raises `InvalidFuzziness` (or anything else) before or during the
membership computation. -/
theorem C5_counterexample_low_mu_proceeds :
    (FCM.init 2 (1 / 2) (1 / 100)).mu = 1 / 2 ∧
    update_membershipE matZero matZero 1 matOne 1 (1 / 2)
      = .ok (update_membership matZero matZero 1 matOne 1 (1 / 2)) ∧
    update_membershipE matZero matZero 1 matOne 1 (1 / 2)
      ≠ .error .invalidFuzziness := by
  have hok : update_membershipE matZero matZero 1 matOne 1 (1 / 2)
      = .ok (update_membership matZero matZero 1 matOne 1 (1 / 2)) :=
    update_membershipE_ok (by norm_num) (by norm_num)
      (fun k _ j _ => by norm_num [matOne])
  exact ⟨rfl, hok, by rw [hok]; exact fun h => Except.noConfusion h⟩

/-- C5 amended: the constructor validates nothing; `mu = 1` raises
`ZeroDivisionError` (not `InvalidFuzziness`) when the membership update
computes the exponent `2/(mu-1)`, and `mu < 1` proceeds normally. -/
theorem C5_amended_no_fuzziness_validation :
    (∀ n (μ e : ℝ), (FCM.init n μ e).mu = μ) ∧
    (∀ u data N d K,
      update_membershipE u data N d K 1 = .error .zeroDivisionError) ∧
    update_membershipE matZero matZero 1 matOne 1 (1 / 2)
      = .ok (update_membership matZero matZero 1 matOne 1 (1 / 2)) :=
  ⟨fun _ _ _ => rfl, update_membershipE_mu_one,
    update_membershipE_ok (by norm_num) (by norm_num)
      (fun k _ j _ => by norm_num [matOne])⟩

/-- A zero entry in the distance matrix makes the membership update raise
`ZeroDivisionError` from `fdiv`. -/
theorem membershipE_zero_distance_raises (u data : Mat) (N : ℕ) (d : Mat)
    (K : ℕ) (μ : ℝ) (k j : ℕ) (hk : k < N) (hj : j < K)
    (hzero : d k j = 0) :
    update_membershipE u data N d K μ = .error .zeroDivisionError := by
  by_cases hμ : μ = 1
  · rw [hμ]; exact update_membershipE_mu_one u data N d K
  · rw [update_membershipE, fdivE, if_neg (sub_ne_zero.mpr hμ), ok_bindE]
    have hrow : mapE (membership_entryE d K (2 / (μ - 1)) k) (List.range K)
        = .error .zeroDivisionError := by
      refine mapE_error_of_mem
        (fun i _ => okOrErr_membership_entryE d K _ k i)
        (List.mem_range.mpr hj) ?_
      rw [membership_entryE,
        mapE_error_of_mem (fun j' _ => okOrErr_razaoE d _ k j j')
          (List.mem_range.mpr hj)
          (by rw [razaoE, hzero, fdivE, if_pos rfl, error_bindE]),
        error_bindE]
    rw [mapE_error_of_mem
      (fun r _ => okOrErr_mapE fun i _ => okOrErr_membership_entryE d K _ r i)
      (List.mem_range.mpr hk) hrow, error_bindE]

/-- C6 amended: a zero entry in the distance matrix makes the membership
update raise `ZeroDivisionError` from `fdiv`; no special case assigns the
coincident point memberships. -/
theorem C6_amended_zero_distance_raises (u data : Mat) (N : ℕ) (d : Mat)
    (K : ℕ) (μ : ℝ) (k j : ℕ) (hk : k < N) (hj : j < K)
    (hzero : d k j = 0) :
    update_membershipE u data N d K μ = .error .zeroDivisionError :=
  membershipE_zero_distance_raises u data N d K μ k j hk hj hzero

/-- C6 counterexample: a point at distance 0 from center 0 (of two centers)
makes the membership update raise `ZeroDivisionError` instead of returning
the claimed 1-and-0 memberships. -/
theorem C6_counterexample_zero_distance :
    update_membershipE matZero matZero 1 dZeroDist 2 3
      = .error .zeroDivisionError :=
  membershipE_zero_distance_raises matZero matZero 1 dZeroDist 2 3 0 0
    (by norm_num) (by norm_num) (by norm_num [dZeroDist])

/-- Witness for the amended C6 at a 1 × 1 all-zero distance matrix. -/
theorem C6_amended_zero_distance_raises_witness :
    update_membershipE matOne matOne 1 matZero 1 3
      = .error .zeroDivisionError :=
  C6_amended_zero_distance_raises matOne matOne 1 matZero 1 3 0 0
    (by norm_num) (by norm_num) (by norm_num [matZero])

/-- A cluster whose weights `u[i][k]^mu` sum to zero makes
`update_centroids` raise `ZeroDivisionError` from `fdiv`. -/
theorem centroidsE_zero_weight_raises (u data : Mat) (μ : ℝ)
    (K N D : ℕ) (i : ℕ) (hD : 0 < D) (hi : i < K)
    (hdeg : ((List.range N).map fun k => u i k ^ μ).sum = 0) :
    update_centroidsE u data μ K N D = .error .zeroDivisionError := by
  have hmem : ((i, 0) : ℕ × ℕ) ∈ centroid_pairs K D := by
    simp only [centroid_pairs, List.mem_flatMap, List.mem_map, List.mem_range]
    exact ⟨i, hi, 0, hD, rfl⟩
  have herr : centroid_entryE u data μ N (i, 0) = .error .zeroDivisionError := by
    rw [centroid_entryE, fdivE]
    exact if_pos hdeg
  rw [update_centroidsE,
    mapE_error_of_mem (fun p _ => by rw [centroid_entryE]; exact okOrErr_fdivE _ _)
      hmem herr, error_bindE]

/-- C7 amended: a cluster whose weights `u[i][k]^mu` sum to zero makes
`update_centroids` raise `ZeroDivisionError` from `fdiv` — not a
`DegenerateCluster` error, which the code never defines. -/
theorem C7_amended_degenerate_cluster_raises (u data : Mat) (μ : ℝ)
    (K N D : ℕ) (i : ℕ) (hD : 0 < D) (hi : i < K)
    (hdeg : ((List.range N).map fun k => u i k ^ μ).sum = 0) :
    update_centroidsE u data μ K N D = .error .zeroDivisionError :=
  centroidsE_zero_weight_raises u data μ K N D i hD hi hdeg

/-- C7 counterexample: an all-zero membership row (total weight 0) makes the
centroid update raise `ZeroDivisionError`, which is not the claimed
`DegenerateCluster` error. -/
theorem C7_counterexample_zero_weights :
    update_centroidsE matZero matOne 3 1 1 1 = .error .zeroDivisionError ∧
    PyErr.zeroDivisionError ≠ PyErr.degenerateCluster :=
  ⟨centroidsE_zero_weight_raises matZero matOne 3 1 1 1 0 (by norm_num)
      (by norm_num)
      (by norm_num [matZero, Real.zero_rpow (by norm_num : (3:ℝ) ≠ 0)]),
    by decide⟩

/-- Witness for the amended C7 at a 2-point, 1-cluster instance. -/
theorem C7_amended_degenerate_cluster_raises_witness :
    update_centroidsE matZero matZero 2 1 2 1 = .error .zeroDivisionError :=
  C7_amended_degenerate_cluster_raises matZero matZero 2 1 2 1 0 (by norm_num)
    (by norm_num)
    (by norm_num [matZero, List.range_succ,
      Real.zero_rpow (by norm_num : (2:ℝ) ≠ 0)])

/-! Claim C3: the shape of `FCM.fit`. -/

/-- The stopping condition of loop iteration `n` (comparing the snapshot
`u_copy` taken at state `n` with the membership after the iteration). -/
noncomputable def stopsAt (cfg : FCM) (data : Mat) (N D : ℕ) (u0 : Mat)
    (n : ℕ) : Prop :=
  matrix_norm (fitSeq cfg data N D u0 n).u
    (fitSeq cfg data N D u0 (n + 1)).u cfg.n_clusters N < cfg.eps

/-- The loop of `FCM.fit`, begun at state `n` of the iteration sequence,
returns within `fuel` iterations exactly the state one past the first
iteration whose stopping condition holds. -/
theorem fitAux_some_iff (cfg : FCM) (data : Mat) (N D : ℕ) (u0 : Mat) :
    ∀ fuel n s,
      fitAux cfg data N D fuel (fitSeq cfg data N D u0 n) = some s ↔
        ∃ t, t < fuel ∧ (∀ r < t, ¬ stopsAt cfg data N D u0 (n + r)) ∧
          stopsAt cfg data N D u0 (n + t) ∧
          s = fitSeq cfg data N D u0 (n + t + 1) := by
  intro fuel
  induction fuel with
  | zero => intro n s; simp [fitAux]
  | succ fuel ih =>
      intro n s
      have hb : fitSeq cfg data N D u0 (n + 1)
          = loopBody cfg data N D (fitSeq cfg data N D u0 n) := rfl
      simp only [fitAux]
      rw [← hb]
      have hcond : (matrix_norm (fitSeq cfg data N D u0 n).u
          (fitSeq cfg data N D u0 (n + 1)).u cfg.n_clusters N < cfg.eps)
          = stopsAt cfg data N D u0 n := rfl
      simp only [hcond]
      by_cases hstop : stopsAt cfg data N D u0 n
      · rw [if_pos hstop]
        constructor
        · intro h
          refine ⟨0, Nat.succ_pos fuel, fun r hr => absurd hr (Nat.not_lt_zero r),
            by simpa using hstop, ?_⟩
          simpa using (Option.some.inj h).symm
        · rintro ⟨t, _, hno, _, hs⟩
          rcases Nat.eq_zero_or_pos t with ht0 | htpos
          · subst ht0; simpa using congrArg some hs.symm
          · exact absurd (by simpa using hstop) (hno 0 htpos)
      · rw [if_neg hstop, ih (n + 1) s]
        constructor
        · rintro ⟨t, ht, hno, hst, hs⟩
          refine ⟨t + 1, by omega, ?_, ?_, ?_⟩
          · intro r hr
            match r with
            | 0 => simpa using hstop
            | r + 1 =>
                have : n + 1 + r = n + (r + 1) := by omega
                rw [← this]
                exact hno r (by omega)
          · have : n + (t + 1) = n + 1 + t := by omega
            rw [this]; exact hst
          · have : n + (t + 1) + 1 = n + 1 + t + 1 := by omega
            rw [this]; exact hs
        · rintro ⟨t, ht, hno, hst, hs⟩
          rcases Nat.eq_zero_or_pos t with ht0 | htpos
          · subst ht0
            exact absurd (by simpa using hst) hstop
          · obtain ⟨t', rfl⟩ := Nat.exists_eq_add_of_lt htpos
            rw [Nat.zero_add] at *
            refine ⟨t', by omega, ?_, ?_, ?_⟩
            · intro r hr
              have : n + 1 + r = n + (r + 1) := by omega
              rw [this]
              exact hno (r + 1) (by omega)
            · have : n + 1 + t' = n + (t' + 1) := by omega
              rw [this]; exact hst
            · have : n + 1 + t' + 1 = n + (t' + 1) + 1 := by omega
              rw [this]; exact hs

/-- C3: `fit` primes the centers with one centroid update from the initial
membership; each loop iteration snapshots the membership, updates
memberships from a freshly recomputed distance matrix, then updates
centroids; and the loop returns exactly at the first iteration whose
snapshot-to-current Frobenius norm drops below epsilon. -/
theorem C3_fit_priming_loop_and_stop (cfg : FCM) (data : Mat) (N D : ℕ)
    (u0 : Mat) :
    ((fitSeq cfg data N D u0 0).u = u0 ∧
      (fitSeq cfg data N D u0 0).centers
        = update_centroids u0 data cfg.mu cfg.n_clusters N D) ∧
    (∀ n,
      (fitSeq cfg data N D u0 (n + 1)).u
        = update_membership (fitSeq cfg data N D u0 n).u data N
            (calculate_distances data (fitSeq cfg data N D u0 n).centers N
              cfg.n_clusters D) cfg.n_clusters cfg.mu ∧
      (fitSeq cfg data N D u0 (n + 1)).centers
        = update_centroids (fitSeq cfg data N D u0 (n + 1)).u data cfg.mu
            cfg.n_clusters N D) ∧
    (∀ fuel s, fit cfg data N D u0 fuel = some s ↔
      ∃ t, t < fuel ∧
        (∀ r < t, ¬ matrix_norm (fitSeq cfg data N D u0 r).u
          (fitSeq cfg data N D u0 (r + 1)).u cfg.n_clusters N < cfg.eps) ∧
        matrix_norm (fitSeq cfg data N D u0 t).u
          (fitSeq cfg data N D u0 (t + 1)).u cfg.n_clusters N < cfg.eps ∧
        s = fitSeq cfg data N D u0 (t + 1)) := by
  refine ⟨⟨rfl, rfl⟩, fun n => ⟨rfl, rfl⟩, fun fuel s => ?_⟩
  have h := fitAux_some_iff cfg data N D u0 fuel 0 s
  simpa [stopsAt, fit] using h

/-! Claim C9: evaluation of one failing fit run.  Data `[[0], [1], [2]]`,
initial membership `[[1/4, 1/2, 3/4], [3/4, 1/2, 1/4]]`, two clusters,
`mu = 3` (so the membership exponent `2/(mu-1)` is 1 and every power is
exact), default `eps = 0.01`.  The objective after loop iteration 2 is
strictly larger than after loop iteration 1, and neither iteration meets
the stopping condition, so a real fit run reaches both. -/

/-- The failing run's data matrix: three 1-D points 0, 1, 2. -/
noncomputable def data9 : Mat := fun k _ =>
  if k = 0 then 0 else if k = 1 then 1 else 2

/-- The failing run's initial membership matrix. -/
noncomputable def u9 : Mat := fun i k =>
  if i = 0 then (if k = 0 then 1 / 4 else if k = 1 then 1 / 2 else 3 / 4)
  else (if k = 0 then 3 / 4 else if k = 1 then 1 / 2 else 1 / 4)

/-- The failing run's configuration: `FCM(n_clusters=2, mu=3, eps=0.01)`. -/
noncomputable def cfg9 : FCM := FCM.init 2 3 (1 / 100)

/-- Cubing, as the `mpf` power with real exponent 3 computes it. -/
theorem c9_rpow_three (x : ℝ) : x ^ (3 : ℝ) = x ^ (3 : ℕ) := by
  rw [show (3 : ℝ) = ((3 : ℕ) : ℝ) by norm_num, Real.rpow_natCast]

/-- With `mu = 3` the membership exponent `2/(mu-1)` is 1. -/
theorem c9_rpow_expo (x : ℝ) : x ^ (2 / ((3 : ℝ) - 1)) = x := by
  rw [show 2 / ((3 : ℝ) - 1) = 1 by norm_num, Real.rpow_one]

/-- Primed center 0. -/
theorem c9_c0_0 : (fitSeq cfg9 data9 3 1 u9 0).centers 0 0 = 31 / 18 := by
  show update_centroids u9 data9 3 2 3 1 0 0 = 31 / 18
  rw [update_centroids_apply u9 data9 3 (by norm_num) (by norm_num)]
  norm_num [Finset.sum_range_succ, u9, data9, c9_rpow_three]

/-- Primed center 1. -/
theorem c9_c0_1 : (fitSeq cfg9 data9 3 1 u9 0).centers 1 0 = 5 / 18 := by
  show update_centroids u9 data9 3 2 3 1 1 0 = 5 / 18
  rw [update_centroids_apply u9 data9 3 (by norm_num) (by norm_num)]
  norm_num [Finset.sum_range_succ, u9, data9, c9_rpow_three]

/-- Distance matrix of iteration 1, entry (0,0). -/
theorem c9_d0_00 :
    calculate_distances data9 (fitSeq cfg9 data9 3 1 u9 0).centers 3 2 1 0 0
      = 961 / 324 := by
  rw [calculate_distances_apply data9 _ 1 (by norm_num) (by norm_num),
    calculate_euclidean_distance_eq_sum, Finset.sum_range_one, c9_c0_0]
  norm_num [data9]

/-- Distance matrix of iteration 1, entry (0,1). -/
theorem c9_d0_01 :
    calculate_distances data9 (fitSeq cfg9 data9 3 1 u9 0).centers 3 2 1 0 1
      = 25 / 324 := by
  rw [calculate_distances_apply data9 _ 1 (by norm_num) (by norm_num),
    calculate_euclidean_distance_eq_sum, Finset.sum_range_one, c9_c0_1]
  norm_num [data9]

/-- Distance matrix of iteration 1, entry (1,0). -/
theorem c9_d0_10 :
    calculate_distances data9 (fitSeq cfg9 data9 3 1 u9 0).centers 3 2 1 1 0
      = 169 / 324 := by
  rw [calculate_distances_apply data9 _ 1 (by norm_num) (by norm_num),
    calculate_euclidean_distance_eq_sum, Finset.sum_range_one, c9_c0_0]
  norm_num [data9]

/-- Distance matrix of iteration 1, entry (1,1). -/
theorem c9_d0_11 :
    calculate_distances data9 (fitSeq cfg9 data9 3 1 u9 0).centers 3 2 1 1 1
      = 169 / 324 := by
  rw [calculate_distances_apply data9 _ 1 (by norm_num) (by norm_num),
    calculate_euclidean_distance_eq_sum, Finset.sum_range_one, c9_c0_1]
  norm_num [data9]

/-- Distance matrix of iteration 1, entry (2,0). -/
theorem c9_d0_20 :
    calculate_distances data9 (fitSeq cfg9 data9 3 1 u9 0).centers 3 2 1 2 0
      = 25 / 324 := by
  rw [calculate_distances_apply data9 _ 1 (by norm_num) (by norm_num),
    calculate_euclidean_distance_eq_sum, Finset.sum_range_one, c9_c0_0]
  norm_num [data9]

/-- Distance matrix of iteration 1, entry (2,1). -/
theorem c9_d0_21 :
    calculate_distances data9 (fitSeq cfg9 data9 3 1 u9 0).centers 3 2 1 2 1
      = 961 / 324 := by
  rw [calculate_distances_apply data9 _ 1 (by norm_num) (by norm_num),
    calculate_euclidean_distance_eq_sum, Finset.sum_range_one, c9_c0_1]
  norm_num [data9]

/-- Membership after iteration 1, entry (0,0). -/
theorem c9_u1_00 : (fitSeq cfg9 data9 3 1 u9 1).u 0 0 = 25 / 986 := by
  show update_membership (fitSeq cfg9 data9 3 1 u9 0).u data9 3
    (calculate_distances data9 (fitSeq cfg9 data9 3 1 u9 0).centers 3 2 1)
    2 3 0 0 = 25 / 986
  rw [update_membership_apply _ _ _ _ (by norm_num) (by norm_num)]
  simp only [Finset.sum_range_succ, Finset.sum_range_one, c9_d0_00, c9_d0_01]
  norm_num [c9_rpow_expo]

/-- Membership after iteration 1, entry (0,1). -/
theorem c9_u1_01 : (fitSeq cfg9 data9 3 1 u9 1).u 0 1 = 1 / 2 := by
  show update_membership (fitSeq cfg9 data9 3 1 u9 0).u data9 3
    (calculate_distances data9 (fitSeq cfg9 data9 3 1 u9 0).centers 3 2 1)
    2 3 0 1 = 1 / 2
  rw [update_membership_apply _ _ _ _ (by norm_num) (by norm_num)]
  simp only [Finset.sum_range_succ, Finset.sum_range_one, c9_d0_10, c9_d0_11]
  norm_num [c9_rpow_expo]

/-- Membership after iteration 1, entry (0,2). -/
theorem c9_u1_02 : (fitSeq cfg9 data9 3 1 u9 1).u 0 2 = 961 / 986 := by
  show update_membership (fitSeq cfg9 data9 3 1 u9 0).u data9 3
    (calculate_distances data9 (fitSeq cfg9 data9 3 1 u9 0).centers 3 2 1)
    2 3 0 2 = 961 / 986
  rw [update_membership_apply _ _ _ _ (by norm_num) (by norm_num)]
  simp only [Finset.sum_range_succ, Finset.sum_range_one, c9_d0_20, c9_d0_21]
  norm_num [c9_rpow_expo]

/-- Membership after iteration 1, entry (1,0). -/
theorem c9_u1_10 : (fitSeq cfg9 data9 3 1 u9 1).u 1 0 = 961 / 986 := by
  show update_membership (fitSeq cfg9 data9 3 1 u9 0).u data9 3
    (calculate_distances data9 (fitSeq cfg9 data9 3 1 u9 0).centers 3 2 1)
    2 3 1 0 = 961 / 986
  rw [update_membership_apply _ _ _ _ (by norm_num) (by norm_num)]
  simp only [Finset.sum_range_succ, Finset.sum_range_one, c9_d0_00, c9_d0_01]
  norm_num [c9_rpow_expo]

/-- Membership after iteration 1, entry (1,1). -/
theorem c9_u1_11 : (fitSeq cfg9 data9 3 1 u9 1).u 1 1 = 1 / 2 := by
  show update_membership (fitSeq cfg9 data9 3 1 u9 0).u data9 3
    (calculate_distances data9 (fitSeq cfg9 data9 3 1 u9 0).centers 3 2 1)
    2 3 1 1 = 1 / 2
  rw [update_membership_apply _ _ _ _ (by norm_num) (by norm_num)]
  simp only [Finset.sum_range_succ, Finset.sum_range_one, c9_d0_10, c9_d0_11]
  norm_num [c9_rpow_expo]

/-- Membership after iteration 1, entry (1,2). -/
theorem c9_u1_12 : (fitSeq cfg9 data9 3 1 u9 1).u 1 2 = 25 / 986 := by
  show update_membership (fitSeq cfg9 data9 3 1 u9 0).u data9 3
    (calculate_distances data9 (fitSeq cfg9 data9 3 1 u9 0).centers 3 2 1)
    2 3 1 2 = 25 / 986
  rw [update_membership_apply _ _ _ _ (by norm_num) (by norm_num)]
  simp only [Finset.sum_range_succ, Finset.sum_range_one, c9_d0_20, c9_d0_21]
  norm_num [c9_rpow_expo]

/-- Center 0 after iteration 1. -/
theorem c9_c1_0 : (fitSeq cfg9 data9 3 1 u9 1).centers 0 0
    = 631610173 / 335780821 := by
  show update_centroids (fitSeq cfg9 data9 3 1 u9 1).u data9 3 2 3 1 0 0
    = 631610173 / 335780821
  rw [update_centroids_apply _ data9 3 (by norm_num) (by norm_num)]
  simp only [Finset.sum_range_succ, Finset.sum_range_one, c9_u1_00, c9_u1_01,
    c9_u1_02]
  norm_num [data9, c9_rpow_three]

/-- Center 1 after iteration 1. -/
theorem c9_c1_1 : (fitSeq cfg9 data9 3 1 u9 1).centers 1 0
    = 39951469 / 335780821 := by
  show update_centroids (fitSeq cfg9 data9 3 1 u9 1).u data9 3 2 3 1 1 0
    = 39951469 / 335780821
  rw [update_centroids_apply _ data9 3 (by norm_num) (by norm_num)]
  simp only [Finset.sum_range_succ, Finset.sum_range_one, c9_u1_10, c9_u1_11,
    c9_u1_12]
  norm_num [data9, c9_rpow_three]

/-- The objective after loop iteration 1. -/
theorem c9_J1 : mmg (fitSeq cfg9 data9 3 1 u9 1).u data9
    (fitSeq cfg9 data9 3 1 u9 1).centers 3 3 2 1
      = 17733472353905257 / 80468636064543794 := by
  rw [mmg_eq_sum]
  simp only [Finset.sum_range_succ, Finset.sum_range_one,
    calculate_euclidean_distance_eq_sum, c9_c1_0, c9_c1_1, c9_u1_00, c9_u1_01,
    c9_u1_02, c9_u1_10, c9_u1_11, c9_u1_12]
  norm_num [data9, c9_rpow_three]

/-- Distance matrix of iteration 2, entry (0,0). -/
theorem c9_d1_00 :
    calculate_distances data9 (fitSeq cfg9 data9 3 1 u9 1).centers 3 2 1 0 0
      = 398931410637089929 / 112748759751434041 := by
  rw [calculate_distances_apply data9 _ 1 (by norm_num) (by norm_num),
    calculate_euclidean_distance_eq_sum, Finset.sum_range_one, c9_c1_0]
  norm_num [data9]

/-- Distance matrix of iteration 2, entry (0,1). -/
theorem c9_d1_01 :
    calculate_distances data9 (fitSeq cfg9 data9 3 1 u9 1).centers 3 2 1 0 1
      = 1596119875257961 / 112748759751434041 := by
  rw [calculate_distances_apply data9 _ 1 (by norm_num) (by norm_num),
    calculate_euclidean_distance_eq_sum, Finset.sum_range_one, c9_c1_1]
  norm_num [data9]

/-- Distance matrix of iteration 2, entry (1,0). -/
theorem c9_d1_10 :
    calculate_distances data9 (fitSeq cfg9 data9 3 1 u9 1).centers 3 2 1 1 0
      = 87515005504739904 / 112748759751434041 := by
  rw [calculate_distances_apply data9 _ 1 (by norm_num) (by norm_num),
    calculate_euclidean_distance_eq_sum, Finset.sum_range_one, c9_c1_0]
  norm_num [data9]

/-- Distance matrix of iteration 2, entry (1,1). -/
theorem c9_d1_11 :
    calculate_distances data9 (fitSeq cfg9 data9 3 1 u9 1).centers 3 2 1 1 1
      = 87515005504739904 / 112748759751434041 := by
  rw [calculate_distances_apply data9 _ 1 (by norm_num) (by norm_num),
    calculate_euclidean_distance_eq_sum, Finset.sum_range_one, c9_c1_1]
  norm_num [data9]

/-- Distance matrix of iteration 2, entry (2,0). -/
theorem c9_d1_20 :
    calculate_distances data9 (fitSeq cfg9 data9 3 1 u9 1).centers 3 2 1 2 0
      = 1596119875257961 / 112748759751434041 := by
  rw [calculate_distances_apply data9 _ 1 (by norm_num) (by norm_num),
    calculate_euclidean_distance_eq_sum, Finset.sum_range_one, c9_c1_0]
  norm_num [data9]

/-- Distance matrix of iteration 2, entry (2,1). -/
theorem c9_d1_21 :
    calculate_distances data9 (fitSeq cfg9 data9 3 1 u9 1).centers 3 2 1 2 1
      = 398931410637089929 / 112748759751434041 := by
  rw [calculate_distances_apply data9 _ 1 (by norm_num) (by norm_num),
    calculate_euclidean_distance_eq_sum, Finset.sum_range_one, c9_c1_1]
  norm_num [data9]

/-- Membership after iteration 2, entry (0,0). -/
theorem c9_u2_00 : (fitSeq cfg9 data9 3 1 u9 2).u 0 0
    = 1596119875257961 / 400527530512347890 := by
  show update_membership (fitSeq cfg9 data9 3 1 u9 1).u data9 3
    (calculate_distances data9 (fitSeq cfg9 data9 3 1 u9 1).centers 3 2 1)
    2 3 0 0 = 1596119875257961 / 400527530512347890
  rw [update_membership_apply _ _ _ _ (by norm_num) (by norm_num)]
  simp only [Finset.sum_range_succ, Finset.sum_range_one, c9_d1_00, c9_d1_01]
  norm_num [c9_rpow_expo]

/-- Membership after iteration 2, entry (0,1). -/
theorem c9_u2_01 : (fitSeq cfg9 data9 3 1 u9 2).u 0 1 = 1 / 2 := by
  show update_membership (fitSeq cfg9 data9 3 1 u9 1).u data9 3
    (calculate_distances data9 (fitSeq cfg9 data9 3 1 u9 1).centers 3 2 1)
    2 3 0 1 = 1 / 2
  rw [update_membership_apply _ _ _ _ (by norm_num) (by norm_num)]
  simp only [Finset.sum_range_succ, Finset.sum_range_one, c9_d1_10, c9_d1_11]
  norm_num [c9_rpow_expo]

/-- Membership after iteration 2, entry (0,2). -/
theorem c9_u2_02 : (fitSeq cfg9 data9 3 1 u9 2).u 0 2
    = 398931410637089929 / 400527530512347890 := by
  show update_membership (fitSeq cfg9 data9 3 1 u9 1).u data9 3
    (calculate_distances data9 (fitSeq cfg9 data9 3 1 u9 1).centers 3 2 1)
    2 3 0 2 = 398931410637089929 / 400527530512347890
  rw [update_membership_apply _ _ _ _ (by norm_num) (by norm_num)]
  simp only [Finset.sum_range_succ, Finset.sum_range_one, c9_d1_20, c9_d1_21]
  norm_num [c9_rpow_expo]

/-- Membership after iteration 2, entry (1,0). -/
theorem c9_u2_10 : (fitSeq cfg9 data9 3 1 u9 2).u 1 0
    = 398931410637089929 / 400527530512347890 := by
  show update_membership (fitSeq cfg9 data9 3 1 u9 1).u data9 3
    (calculate_distances data9 (fitSeq cfg9 data9 3 1 u9 1).centers 3 2 1)
    2 3 1 0 = 398931410637089929 / 400527530512347890
  rw [update_membership_apply _ _ _ _ (by norm_num) (by norm_num)]
  simp only [Finset.sum_range_succ, Finset.sum_range_one, c9_d1_00, c9_d1_01]
  norm_num [c9_rpow_expo]

/-- Membership after iteration 2, entry (1,1). -/
theorem c9_u2_11 : (fitSeq cfg9 data9 3 1 u9 2).u 1 1 = 1 / 2 := by
  show update_membership (fitSeq cfg9 data9 3 1 u9 1).u data9 3
    (calculate_distances data9 (fitSeq cfg9 data9 3 1 u9 1).centers 3 2 1)
    2 3 1 1 = 1 / 2
  rw [update_membership_apply _ _ _ _ (by norm_num) (by norm_num)]
  simp only [Finset.sum_range_succ, Finset.sum_range_one, c9_d1_10, c9_d1_11]
  norm_num [c9_rpow_expo]

/-- Membership after iteration 2, entry (1,2). -/
theorem c9_u2_12 : (fitSeq cfg9 data9 3 1 u9 2).u 1 2
    = 1596119875257961 / 400527530512347890 := by
  show update_membership (fitSeq cfg9 data9 3 1 u9 1).u data9 3
    (calculate_distances data9 (fitSeq cfg9 data9 3 1 u9 1).centers 3 2 1)
    2 3 1 2 = 1596119875257961 / 400527530512347890
  rw [update_membership_apply _ _ _ _ (by norm_num) (by norm_num)]
  simp only [Finset.sum_range_succ, Finset.sum_range_one, c9_d1_20, c9_d1_21]
  norm_num [c9_rpow_expo]

/-- Center 0 after iteration 2. -/
theorem c9_c2_0 : (fitSeq cfg9 data9 3 1 u9 2).centers 0 0
    = 45002861961099749760412451785058325160774242354102601 /
        23840047934700457593332242506350614605644727488263465 := by
  show update_centroids (fitSeq cfg9 data9 3 1 u9 2).u data9 3 2 3 1 0 0 = _
  rw [update_centroids_apply _ data9 3 (by norm_num) (by norm_num)]
  simp only [Finset.sum_range_succ, Finset.sum_range_one, c9_u2_00, c9_u2_01,
    c9_u2_02]
  norm_num [data9, c9_rpow_three]

/-- Center 1 after iteration 2. -/
theorem c9_c2_1 : (fitSeq cfg9 data9 3 1 u9 2).centers 1 0
    = 2677233908301165426252033227642904050515212622424329 /
        23840047934700457593332242506350614605644727488263465 := by
  show update_centroids (fitSeq cfg9 data9 3 1 u9 2).u data9 3 2 3 1 1 0 = _
  rw [update_centroids_apply _ data9 3 (by norm_num) (by norm_num)]
  simp only [Finset.sum_range_succ, Finset.sum_range_one, c9_u2_10, c9_u2_11,
    c9_u2_12]
  norm_num [data9, c9_rpow_three]

/-- The objective after loop iteration 2. -/
theorem c9_J2 : mmg (fitSeq cfg9 data9 3 1 u9 2).u data9
    (fitSeq cfg9 data9 3 1 u9 2).centers 3 3 2 1
      = 84986801899961193685472897663843333923908539450994933229436478242414418939912569666890165153534999739281 /
        382951920477272824061911069960738647281824713829271014985184169014246993120973359185844601398482948521250 := by
  rw [mmg_eq_sum]
  simp only [Finset.sum_range_succ, Finset.sum_range_one,
    calculate_euclidean_distance_eq_sum, c9_c2_0, c9_c2_1, c9_u2_00, c9_u2_01,
    c9_u2_02, c9_u2_10, c9_u2_11, c9_u2_12]
  norm_num [data9, c9_rpow_three]

/-- Iteration 1 does not meet the stopping condition (its norm is about
0.449, above `eps = 0.01`), so the fit loop continues past it. -/
theorem c9_not_stop_0 :
    ¬ matrix_norm (fitSeq cfg9 data9 3 1 u9 0).u
        (fitSeq cfg9 data9 3 1 u9 1).u 2 3 < 1 / 100 := by
  rw [matrix_norm_eq_sum]
  have h0 : (fitSeq cfg9 data9 3 1 u9 0).u = u9 := rfl
  have hsum : ∑ i ∈ Finset.range 2, ∑ k ∈ Finset.range 3,
      ((fitSeq cfg9 data9 3 1 u9 0).u i k
        - (fitSeq cfg9 data9 3 1 u9 1).u i k) ^ 2 = 196249 / 972196 := by
    simp only [h0, Finset.sum_range_succ, Finset.sum_range_one, c9_u1_00,
      c9_u1_01, c9_u1_02, c9_u1_10, c9_u1_11, c9_u1_12]
    norm_num [u9]
  rw [hsum]
  refine not_lt.mpr ((Real.le_sqrt' (by norm_num)).mpr (by norm_num))

/-- Iteration 2 does not meet the stopping condition either (its norm is
about 0.0427, above `eps = 0.01`), so a real fit run reaches it. -/
theorem c9_not_stop_1 :
    ¬ matrix_norm (fitSeq cfg9 data9 3 1 u9 1).u
        (fitSeq cfg9 data9 3 1 u9 2).u 2 3 < 1 / 100 := by
  rw [matrix_norm_eq_sum]
  have hsum : ∑ i ∈ Finset.range 2, ∑ k ∈ Finset.range 3,
      ((fitSeq cfg9 data9 3 1 u9 1).u i k
        - (fitSeq cfg9 data9 3 1 u9 2).u i k) ^ 2
      = 17805927443524067719555772187232517904 /
          9747620062130980446342753159602461363225 := by
    simp only [Finset.sum_range_succ, Finset.sum_range_one, c9_u1_00,
      c9_u1_01, c9_u1_02, c9_u1_10, c9_u1_11, c9_u1_12, c9_u2_00, c9_u2_01,
      c9_u2_02, c9_u2_10, c9_u2_11, c9_u2_12]
    norm_num
  rw [hsum]
  refine not_lt.mpr ((Real.le_sqrt' (by norm_num)).mpr (by norm_num))

/-- C9 fails on the code: in the fit run with data `[[0], [1], [2]]`,
initial membership `[[1/4, 1/2, 3/4], [3/4, 1/2, 1/4]]`, `n_clusters = 2`,
`mu = 3` and `eps = 1/100`, neither of the first two loop iterations stops,
and the objective `J = mmg` strictly increases from iteration 1 to
iteration 2.  (The membership rule applies exponent `2/(mu-1)` to already
squared distances, so the membership step does not minimize the objective
`mmg` computes.) -/
theorem C9_objective_increases_on_a_fit_run :
    (¬ matrix_norm (fitSeq cfg9 data9 3 1 u9 0).u
        (fitSeq cfg9 data9 3 1 u9 1).u 2 3 < 1 / 100) ∧
    (¬ matrix_norm (fitSeq cfg9 data9 3 1 u9 1).u
        (fitSeq cfg9 data9 3 1 u9 2).u 2 3 < 1 / 100) ∧
    mmg (fitSeq cfg9 data9 3 1 u9 2).u data9
        (fitSeq cfg9 data9 3 1 u9 2).centers 3 3 2 1
      > mmg (fitSeq cfg9 data9 3 1 u9 1).u data9
          (fitSeq cfg9 data9 3 1 u9 1).centers 3 3 2 1 := by
  refine ⟨c9_not_stop_0, c9_not_stop_1, ?_⟩
  rw [c9_J1, c9_J2]
  norm_num

end FCMPy
